import Mathlib

/-
Verification of the ChessVision heuristics and move-history state machine
(src/main.py) against its natural-language specification.

Embedding conventions:
- A square is a Nat 0..63 with python-chess encoding: square = rank * 8 + file,
  squareFile sq = sq % 8, squareRank sq = sq / 8.
- Board occupancy for the pure heuristics is a function Nat -> Bool
  (true = a piece stands on the square), mirroring board.piece_at(sq) is not None.
- For the history state machine, moves are opaque labels (Nat) and notation
  texts are Strings, since legality and notation are delegated to the external
  rules collaborator (python-chess).  The notation computation is modelled as
  an Option String supplied by the caller, mirroring the try/except around
  board.san in the source.
- Python lists that are used with append/pop at the END (board.move_stack,
  san_history, redo_stack) are stored REVERSED here: the most recent element
  is the head.  python append(x) = cons x, python pop() = head/tail,
  python l[-1] = head?, python insert(0, x) = append [x] at the end.
- The board position reached from the standard initial position is determined
  by the chronological sequence of applied moves, so restoring moveStack
  restores the position; the side to move alternates with each ply starting
  from White (board.turn).
-/

namespace ChessVision

/-! ## Squares (python-chess encoding) -/

def squareFile (sq : Nat) : Nat := sq % 8

def squareRank (sq : Nat) : Nat := sq / 8

def mkSquare (file rank : Nat) : Nat := rank * 8 + file

/-- chess.square over Int coordinates that are already known to be on the board. -/
def mkSquareI (x y : Int) : Nat := y.toNat * 8 + x.toNat

def onBoard (x y : Int) : Bool :=
  decide (0 ≤ x) && decide (x < 8) && decide (0 ≤ y) && decide (y < 8)

/-! ## MobilityScorer — ChessGame.calculate_square_mobility (src/main.py:287-336) -/

/-- The 8 queen sliding directions, in source order. -/
def queenDirections : List (Int × Int) :=
  [(0, 1), (0, -1), (1, 0), (-1, 0), (1, 1), (1, -1), (-1, 1), (-1, -1)]

/-- The 8 knight offsets, in source order. -/
def knightOffsets : List (Int × Int) :=
  [(2, 1), (2, -1), (-2, 1), (-2, -1), (1, 2), (1, -2), (-1, 2), (-1, -2)]

/-- The while-loop of calculate_square_mobility for one direction: starting at
(x, y), count squares until leaving the board or hitting an occupied square
(the occupied square itself is not counted).  The fuel bounds the walk; 8 steps
always suffice on an 8x8 board. -/
def slideCount (occ : Nat → Bool) (dx dy : Int) : Nat → Int → Int → Nat
  | 0, _, _ => 0
  | fuel + 1, x, y =>
    if onBoard x y then
      if occ (mkSquareI x y) then 0
      else 1 + slideCount occ dx dy fuel (x + dx) (y + dy)
    else 0

/-- ChessGame.calculate_square_mobility: queen-ray counts in 8 directions plus
knight destinations that are on the board and empty. -/
def calculateSquareMobility (occ : Nat → Bool) (sq : Nat) : Nat :=
  let col : Int := squareFile sq
  let row : Int := squareRank sq
  (queenDirections.map (fun d => slideCount occ d.1 d.2 8 (col + d.1) (row + d.2))).sum
    + (knightOffsets.map (fun d =>
        if onBoard (col + d.1) (row + d.2) then
          if occ (mkSquareI (col + d.1) (row + d.2)) then 0 else 1
        else 0)).sum

/-- An empty board: no square is occupied. -/
def emptyBoardOcc : Nat → Bool := fun _ => false

/-! ## WeaknessDetector — ChessGame.calculate_weak_squares (src/main.py:367-444) -/

/-- The white half of the per-square loop body: is there a white pawn on an
adjacent file strictly behind (lower rank than) the target square?  Pawn
positions are given as a list of squares (board.pieces(PAWN, WHITE)). -/
def hasWhiteDefenderBehind (whitePawns : List Nat) (sq : Nat) : Bool :=
  let tf := squareFile sq
  let tr := squareRank sq
  (decide (0 < tf) &&
      whitePawns.any (fun p => decide (squareFile p = tf - 1) && decide (squareRank p < tr)))
    || (decide (tf < 7) &&
      whitePawns.any (fun p => decide (squareFile p = tf + 1) && decide (squareRank p < tr)))

/-- The black half: is there a black pawn on an adjacent file strictly behind
(higher rank than, from black's perspective) the target square? -/
def hasBlackDefenderBehind (blackPawns : List Nat) (sq : Nat) : Bool :=
  let tf := squareFile sq
  let tr := squareRank sq
  (decide (0 < tf) &&
      blackPawns.any (fun p => decide (squareFile p = tf - 1) && decide (tr < squareRank p)))
    || (decide (tf < 7) &&
      blackPawns.any (fun p => decide (squareFile p = tf + 1) && decide (tr < squareRank p)))

/-- ChessGame.calculate_weak_squares: the pair (weak squares for White, weak
squares for Black); a square is appended when no friendly pawn on an adjacent
file is strictly behind it. -/
def calculateWeakSquares (whitePawns blackPawns : List Nat) : List Nat × List Nat :=
  ((List.range 64).filter (fun sq => ! hasWhiteDefenderBehind whitePawns sq),
   (List.range 64).filter (fun sq => ! hasBlackDefenderBehind blackPawns sq))

/-! ## History state machine — ChessGame (src/main.py:189-977) -/

inductive Mode where
  | pvp
  | pve
deriving DecidableEq, Repr

inductive Color where
  | white
  | black
deriving DecidableEq, Repr

abbrev Move := Nat

abbrev San := String

/-- The ChessGame fields relevant to the history state machine and the session
gate.  Lists are stored most-recent-first (see the header comment). -/
structure GameState where
  moveStack : List Move
  sanHistory : List San
  redoStack : List (Move × Option San)
  lastMove : Option Move
  historyLastSan : Option San
  allowEngineMove : Bool
  engineEnabled : Bool
  mode : Mode
  originalMode : Mode
  engineSide : Color
  engineThinking : Bool
deriving DecidableEq, Repr

/-- board.turn for a board built from the standard initial position by the
pushes/pops recorded in moveStack: White to move iff an even number of plies
has been played. -/
def turn (s : GameState) : Color :=
  if s.moveStack.length % 2 = 0 then Color.white else Color.black

/-- ChessGame.__init__ (src/main.py:190-231): empty history, engine allowed and
enabled, originalMode = mode. -/
def initState (m : Mode) (side : Color) : GameState :=
  { moveStack := []
    sanHistory := []
    redoStack := []
    lastMove := none
    historyLastSan := none
    allowEngineMove := true
    engineEnabled := true
    mode := m
    originalMode := m
    engineSide := side
    engineThinking := false }

/-- The shared move-application effect of handle_click (src/main.py:873-887)
and make_engine_move (src/main.py:764-778): push the move, record notation only
when its computation succeeded, clear the redo stack. -/
def pushMove (s : GameState) (m : Move) (san : Option San) : GameState :=
  { s with
    moveStack := m :: s.moveStack
    lastMove := some m
    historyLastSan := match san with | some t => some t | none => s.historyLastSan
    sanHistory := match san with | some t => t :: s.sanHistory | none => s.sanHistory
    redoStack := [] }

/-- ChessGame.handle_click, legal-move branch (src/main.py:872-891): apply the
move and re-allow the automated reply. -/
def handleClickApply (s : GameState) (m : Move) (san : Option San) : GameState :=
  { pushMove s m san with allowEngineMove := true }

/-- ChessGame.make_engine_move, successful-move branch (src/main.py:759-779):
apply the move; engine_thinking is set True and back to False around it. -/
def makeEngineMove (s : GameState) (m : Move) (san : Option San) : GameState :=
  { pushMove s m san with engineThinking := false }

/-- ChessGame.undo_move (src/main.py:781-794). -/
def undoMove (s : GameState) : GameState :=
  match s.moveStack with
  | [] => s
  | m :: rest =>
    let san := s.sanHistory.head?
    let sh := s.sanHistory.tail
    { s with
      moveStack := rest
      sanHistory := sh
      redoStack := (m, san) :: s.redoStack
      lastMove := rest.head?
      historyLastSan := match rest with | [] => none | _ :: _ => sh.head? }

/-- ChessGame.redo_move (src/main.py:796-811); redo_stack items are always
(move, san) pairs in this model, as every producer pushes pairs. -/
def redoMove (s : GameState) : GameState :=
  match s.redoStack with
  | [] => s
  | (m, san) :: rest =>
    { s with
      redoStack := rest
      moveStack := m :: s.moveStack
      lastMove := some m
      historyLastSan := match san with | some t => some t | none => s.historyLastSan
      sanHistory := match san with | some t => t :: s.sanHistory | none => s.sanHistory }

/-- ChessGame.undo_to_human_turn (src/main.py:813-846).  The early return
delegates to undo_move without touching allow_engine_move.  In the two-pop
branch, python's redo_stack.insert(0, (move1, san1)) followed by
insert(0, (move2, san2)) places the pairs at the python front, i.e. at the END
of the reversed list stored here. -/
def undoToHumanTurn (s : GameState) : GameState :=
  if s.mode ≠ Mode.pve ∨ s.moveStack = [] then undoMove s
  else
    let s1 : GameState :=
      match s.moveStack with
      | m1 :: m2 :: rest =>
        if turn s = s.engineSide then
          { s with
            moveStack := rest
            sanHistory := s.sanHistory.tail.tail
            redoStack :=
              s.redoStack ++ [(m1, s.sanHistory.head?), (m2, s.sanHistory.tail.head?)] }
        else
          { s with
            moveStack := m2 :: rest
            sanHistory := s.sanHistory.tail
            redoStack := (m1, s.sanHistory.head?) :: s.redoStack }
      | m1 :: rest =>
        { s with
          moveStack := rest
          sanHistory := s.sanHistory.tail
          redoStack := (m1, s.sanHistory.head?) :: s.redoStack }
      | [] => s
    { s1 with
      lastMove := s1.moveStack.head?
      historyLastSan := match s1.moveStack with | [] => none | _ :: _ => s1.sanHistory.head?
      allowEngineMove := false }

/-- The K_r (restart) handler in ChessGame.run (src/main.py:942-954):
board.reset clears move_stack; redo_stack, san_history and the last-move caches
are cleared; allow_engine_move is set back to True.  The other session fields
are not touched. -/
def resetGame (s : GameState) : GameState :=
  { s with
    moveStack := []
    lastMove := none
    redoStack := []
    sanHistory := []
    historyLastSan := none
    allowEngineMove := true }

/-- The engine-toggle branch of ChessGame.handle_button_click
(src/main.py:746-757); the button only acts when original_mode is pve. -/
def toggleEngine (s : GameState) : GameState :=
  if s.originalMode = Mode.pve then
    if s.engineEnabled then
      { s with engineEnabled := false, mode := Mode.pvp, allowEngineMove := false }
    else
      { s with engineEnabled := true, mode := s.originalMode, allowEngineMove := true }
  else s

/-- The automated-reply gate in ChessGame.run (src/main.py:964-968): the outer
conditional, then the engine_thinking guard.  gameOver is the rules
collaborator's board.is_game_over() answer. -/
def engineReplyRequested (s : GameState) (gameOver : Bool) : Bool :=
  if s.mode = Mode.pve ∧ turn s = s.engineSide ∧ gameOver = false ∧
      s.allowEngineMove = true ∧ s.engineEnabled = true then
    if s.engineThinking = false then true else false
  else false

/-- States reachable from session start by the modelled operations, with the
notation oracle free to succeed or fail on any move (the collaborator's
toAlgebraic returns optional text). -/
inductive Reachable : GameState → Prop where
  | init : ∀ (m : Mode) (c : Color), Reachable (initState m c)
  | initEngineFailed : ∀ (c : Color), Reachable { initState Mode.pve c with mode := Mode.pvp }
  | humanMove : ∀ (s : GameState) (m : Move) (san : Option San),
      Reachable s → Reachable (handleClickApply s m san)
  | engineMove : ∀ (s : GameState) (m : Move) (san : Option San),
      Reachable s → Reachable (makeEngineMove s m san)
  | undo : ∀ (s : GameState), Reachable s → Reachable (undoMove s)
  | redo : ∀ (s : GameState), Reachable s → Reachable (redoMove s)
  | undoHuman : ∀ (s : GameState), Reachable s → Reachable (undoToHumanTurn s)
  | reset : ∀ (s : GameState), Reachable s → Reachable (resetGame s)
  | toggle : ∀ (s : GameState), Reachable s → Reachable (toggleEngine s)

/-- The cached-view invariant of the history state: last_move and
history_last_move_san mirror the tails of move_stack and san_history, and
san_history is never longer than move_stack. -/
def HistoryInv (s : GameState) : Prop :=
  s.lastMove = s.moveStack.head? ∧
  s.historyLastSan = s.sanHistory.head? ∧
  s.sanHistory.length ≤ s.moveStack.length

/-! ## Promotion construction — ChessGame.handle_click (src/main.py:860-870) -/

inductive PieceType where
  | pawn
  | knight
  | bishop
  | rook
  | queen
  | king
deriving DecidableEq, Repr

structure Piece where
  pieceType : PieceType
  color : Color
deriving DecidableEq, Repr

/-- chess.Move as constructed by handle_click: from-square, to-square, optional
promotion piece. -/
structure ClickMove where
  fromSquare : Nat
  toSquare : Nat
  promotion : Option PieceType
deriving DecidableEq, Repr

/-- The move construction in handle_click (src/main.py:860-870): promotion is
set to queen exactly when the selected piece is a pawn and the destination
rank index is 0 or 7. -/
def buildClickMove (selectedPiece : Option Piece) (selectedSquare targetSquare : Nat) :
    ClickMove :=
  match selectedPiece with
  | some p =>
    if p.pieceType = PieceType.pawn then
      if squareRank targetSquare = 0 ∨ squareRank targetSquare = 7 then
        ⟨selectedSquare, targetSquare, some PieceType.queen⟩
      else ⟨selectedSquare, targetSquare, none⟩
    else ⟨selectedSquare, targetSquare, none⟩
  | none => ⟨selectedSquare, targetSquare, none⟩

/-! ## Claim C3 — MobilityScorer values on an empty board -/

/-- The values claim C3 asserts: a1 = 16 and d4 = 35 on an empty board. -/
def mobilityClaimC3 : Prop :=
  calculateSquareMobility emptyBoardOcc (mkSquare 0 0) = 16 ∧
  calculateSquareMobility emptyBoardOcc (mkSquare 3 3) = 35

/-- Claim C3, counterexample: on an empty board the scorer returns 23 for the
corner square a1 (21 sliding moves of a queen in the corner plus 2 knight
moves), not the 16 the claim asserts, so the claimed pair of values is false. -/
theorem C3_mobility_counterexample :
    ¬ mobilityClaimC3 ∧ calculateSquareMobility emptyBoardOcc (mkSquare 0 0) = 23 := by
  constructor
  · intro h
    exact absurd h.1 (by decide)
  · decide

/-- Claim C3 as amended: on an empty board the MobilityScorer returns exactly
23 for the corner square a1 (21 sliding + 2 knight) and exactly 35 for the
center square d4 (27 sliding + 8 knight). -/
theorem C3_mobility_amended :
    calculateSquareMobility emptyBoardOcc (mkSquare 0 0) = 23 ∧
    calculateSquareMobility emptyBoardOcc (mkSquare 3 3) = 35 := by
  decide

/-! ## Claim C4 — WeaknessDetector on the two-pawn position -/

/-- White pawn on a2 (file 0, rank index 1). -/
def c4WhitePawns : List Nat := [mkSquare 0 1]

/-- Black pawn on d5 (file 3, rank index 4). -/
def c4BlackPawns : List Nat := [mkSquare 3 4]

/-- What claim C4 asserts: e4 is weak for White and also weak for Black. -/
def weaknessClaimC4 : Prop :=
  mkSquare 4 3 ∈ (calculateWeakSquares c4WhitePawns c4BlackPawns).1 ∧
  mkSquare 4 3 ∈ (calculateWeakSquares c4WhitePawns c4BlackPawns).2

/-- Claim C4, counterexample: in the position with only a white pawn on a2 and
a black pawn on d5, e4 is NOT weak for Black — the black pawn on d5 stands on
the adjacent d-file at rank index 4 > 3, i.e. strictly behind e4 from Black's
perspective, so Black has a defender behind and e4 is excluded from Black's
weak-square list.  The claimed conjunction is therefore false. -/
theorem C4_weak_square_counterexample :
    ¬ weaknessClaimC4 ∧ mkSquare 4 3 ∉ (calculateWeakSquares c4WhitePawns c4BlackPawns).2 := by
  constructor
  · intro h
    exact absurd h.2 (by decide)
  · decide

/-- Claim C4 as amended: with only a black pawn on d5 and a white pawn on a2,
e4 is weak for White (no white pawn on the d- or f-file below rank index 3)
and NOT weak for Black (the d5 pawn is an adjacent-file pawn strictly behind
e4 from Black's perspective). -/
theorem C4_weak_square_amended :
    mkSquare 4 3 ∈ (calculateWeakSquares c4WhitePawns c4BlackPawns).1 ∧
    mkSquare 4 3 ∉ (calculateWeakSquares c4WhitePawns c4BlackPawns).2 := by
  decide

/-! ## Claim C1 — sanHistory length vs played length -/

/-- Claim C1, evaluated at the failing input: a single applyMove whose
notation computation fails (the collaborator returns no text).  The move is
applied — played has length 1 — but nothing at all is appended to sanHistory,
which still has length 0, so the claimed invariant
len(sanHistory) = len(played) is violated at this reachable state. -/
theorem C1_san_history_length_eval :
    Reachable (handleClickApply (initState Mode.pve Color.black) 5 none) ∧
    (handleClickApply (initState Mode.pve Color.black) 5 none).moveStack.length = 1 ∧
    (handleClickApply (initState Mode.pve Color.black) 5 none).sanHistory.length = 0 := by
  refine ⟨Reachable.humanMove _ 5 none (Reachable.init Mode.pve Color.black), ?_, ?_⟩ <;> decide

/-! ## Claim C2 — undoToHumanTurn and redo order -/

/-- Claim C2, evaluated at the failing input.  From the start of a PvE session
with automated side Black, the human plays move 10 (notation "a"), the engine
replies 20 ("b"), the human plays 30 ("c"); the side to move now equals the
automated side and played has 3 entries (stored most-recent-first as
[30, 20, 10]).  undoToHumanTurn removes exactly two plies and clears
allowEngineMove, but it inserts the two plies at the python FRONT of
redo_stack while redo_move pops from the python END; the two subsequent
redo() calls therefore re-apply the chronologically later move 30 before the
earlier move 20, leaving played = [10, 30, 20] in chronological order
(stored [20, 30, 10]) instead of restoring the original [10, 20, 30]
(stored [30, 20, 10]). -/
theorem C2_undo_to_human_turn_eval :
    turn (handleClickApply (makeEngineMove (handleClickApply
        (initState Mode.pve Color.black) 10 (some "a")) 20 (some "b")) 30 (some "c")) =
      Color.black ∧
    (handleClickApply (makeEngineMove (handleClickApply
        (initState Mode.pve Color.black) 10 (some "a")) 20 (some "b")) 30 (some "c")).moveStack =
      [30, 20, 10] ∧
    (undoToHumanTurn (handleClickApply (makeEngineMove (handleClickApply
        (initState Mode.pve Color.black) 10 (some "a")) 20 (some "b")) 30 (some "c"))).moveStack =
      [10] ∧
    (undoToHumanTurn (handleClickApply (makeEngineMove (handleClickApply
        (initState Mode.pve Color.black) 10 (some "a")) 20 (some "b")) 30
        (some "c"))).allowEngineMove = false ∧
    (redoMove (redoMove (undoToHumanTurn (handleClickApply (makeEngineMove (handleClickApply
        (initState Mode.pve Color.black) 10 (some "a")) 20 (some "b")) 30
        (some "c"))))).moveStack = [20, 30, 10] := by
  decide

/-! ## Claim C5 — what reset touches -/

/-- What claim C5 asserts of reset: history cleared, caches absent, and every
SessionGate field — including allowAutomatedReply — left unchanged. -/
def resetClaimC5 (s : GameState) : Prop :=
  (resetGame s).moveStack = [] ∧
  (resetGame s).sanHistory = [] ∧
  (resetGame s).redoStack = [] ∧
  (resetGame s).lastMove = none ∧
  (resetGame s).historyLastSan = none ∧
  (resetGame s).mode = s.mode ∧
  (resetGame s).originalMode = s.originalMode ∧
  (resetGame s).engineSide = s.engineSide ∧
  (resetGame s).engineEnabled = s.engineEnabled ∧
  (resetGame s).allowEngineMove = s.allowEngineMove ∧
  (resetGame s).engineThinking = s.engineThinking

/-- A reachable state with allow_engine_move = False: a PvE session whose
engine button was toggled off. -/
def c5State : GameState := toggleEngine (initState Mode.pve Color.black)

/-- Claim C5, counterexample: at the reachable state c5State (where
allow_engine_move is False), the restart handler sets allow_engine_move back
to True, so the SessionGate is NOT left entirely unchanged and the claim as
stated is false. -/
theorem C5_reset_counterexample :
    Reachable c5State ∧ ¬ resetClaimC5 c5State ∧
    c5State.allowEngineMove = false ∧ (resetGame c5State).allowEngineMove = true :=
  ⟨Reachable.toggle _ (Reachable.init Mode.pve Color.black),
    by unfold resetClaimC5; decide, by decide, by decide⟩

/-- Claim C5 as amended: reset clears played and undone, sets lastMove and
lastNotation to absent, sets allowAutomatedReply to TRUE, and leaves the
remaining SessionGate fields (mode, originalMode, automatedSide,
engineEnabled, replyInFlight) unchanged. -/
theorem C5_reset_amended (s : GameState) :
    (resetGame s).moveStack = [] ∧
    (resetGame s).sanHistory = [] ∧
    (resetGame s).redoStack = [] ∧
    (resetGame s).lastMove = none ∧
    (resetGame s).historyLastSan = none ∧
    (resetGame s).allowEngineMove = true ∧
    (resetGame s).mode = s.mode ∧
    (resetGame s).originalMode = s.originalMode ∧
    (resetGame s).engineSide = s.engineSide ∧
    (resetGame s).engineEnabled = s.engineEnabled ∧
    (resetGame s).engineThinking = s.engineThinking :=
  ⟨rfl, rfl, rfl, rfl, rfl, rfl, rfl, rfl, rfl, rfl, rfl⟩

/-! ## Claim C6 — the automated-reply gate -/

/-- Claim C6: in a control-loop iteration an automated reply is requested if
and only if mode is PvE, the side to move is the automated side, the game is
not over, allow_engine_move and engine_enabled hold, and no reply is already
in flight (engine_thinking).  In particular engine_thinking = true forces
requested = false, so a second request while one is in flight never occurs. -/
theorem C6_engine_request_iff (s : GameState) (gameOver : Bool) :
    engineReplyRequested s gameOver = true ↔
      (s.mode = Mode.pve ∧ turn s = s.engineSide ∧ gameOver = false ∧
       s.allowEngineMove = true ∧ s.engineEnabled = true ∧ s.engineThinking = false) := by
  unfold engineReplyRequested
  split_ifs with h1 h2 <;> simp_all

/-- Witness for C6 at a concrete state: at the start of a PvE session with
automated side White, a reply is requested. -/
theorem C6_engine_request_iff_witness :
    engineReplyRequested (initState Mode.pve Color.white) false = true :=
  (C6_engine_request_iff (initState Mode.pve Color.white) false).mpr
    ⟨rfl, by decide, rfl, rfl, rfl, rfl⟩

/-! ## Claim C7 — applyMove clears the redo stack -/

/-- Claim C7: after every successful move application — human (handle_click)
or engine (make_engine_move), with the notation computation succeeding or not
— the redo stack is empty. -/
theorem C7_apply_clears_redo (s : GameState) (m : Move) (san : Option San) :
    (handleClickApply s m san).redoStack = [] ∧ (makeEngineMove s m san).redoStack = [] :=
  ⟨rfl, rfl⟩

/-! ## Claim C8 — undo/redo round trip on reachable states -/

theorem historyInv_initState (m : Mode) (c : Color) : HistoryInv (initState m c) :=
  ⟨rfl, rfl, Nat.le_refl 0⟩

theorem historyInv_pushMove (s : GameState) (m : Move) (san : Option San)
    (h : HistoryInv s) : HistoryInv (pushMove s m san) := by
  obtain ⟨h1, h2, h3⟩ := h
  cases san with
  | none =>
    refine ⟨rfl, h2, ?_⟩
    simpa [pushMove] using Nat.le_succ_of_le h3
  | some t =>
    refine ⟨rfl, rfl, ?_⟩
    simpa [pushMove] using h3

/-- undo_move on a state with a non-empty move stack, written out. -/
theorem undoMove_cons (m : Move) (rest : List Move) (sh : List San)
    (rs : List (Move × Option San)) (lm : Option Move) (hls : Option San)
    (a e : Bool) (mo om : Mode) (es : Color) (et : Bool) :
    undoMove ⟨m :: rest, sh, rs, lm, hls, a, e, mo, om, es, et⟩ =
      ⟨rest, sh.tail, (m, sh.head?) :: rs, rest.head?,
        (match rest with | [] => none | _ :: _ => sh.tail.head?), a, e, mo, om, es, et⟩ := rfl

/-- redo_move on a state with a non-empty redo stack, written out. -/
theorem redoMove_cons (ms : List Move) (sh : List San) (m : Move) (san : Option San)
    (rest : List (Move × Option San)) (lm : Option Move) (hls : Option San)
    (a e : Bool) (mo om : Mode) (es : Color) (et : Bool) :
    redoMove ⟨ms, sh, (m, san) :: rest, lm, hls, a, e, mo, om, es, et⟩ =
      ⟨m :: ms, (match san with | some t => t :: sh | none => sh), rest, some m,
        (match san with | some t => some t | none => hls), a, e, mo, om, es, et⟩ := rfl

/-- undo_to_human_turn delegates to undo_move outside PvE or on an empty stack. -/
theorem undoToHumanTurn_early (s : GameState) (h : s.mode ≠ Mode.pve ∨ s.moveStack = []) :
    undoToHumanTurn s = undoMove s := by
  unfold undoToHumanTurn
  rw [if_pos h]

/-- undo_to_human_turn in PvE with exactly one played ply, written out. -/
theorem undoToHumanTurn_one (m1 : Move) (sh : List San)
    (rs : List (Move × Option San)) (lm : Option Move) (hls : Option San)
    (a e : Bool) (om : Mode) (es : Color) (et : Bool) :
    undoToHumanTurn ⟨[m1], sh, rs, lm, hls, a, e, Mode.pve, om, es, et⟩ =
      ⟨[], sh.tail, (m1, sh.head?) :: rs, none, none, false, e, Mode.pve, om, es, et⟩ := by
  unfold undoToHumanTurn
  rw [if_neg (by simp)]
  rfl

/-- undo_to_human_turn in PvE, two or more plies, engine side to move: the
two-pop branch, written out. -/
theorem undoToHumanTurn_two (m1 m2 : Move) (rest2 : List Move) (sh : List San)
    (rs : List (Move × Option San)) (lm : Option Move) (hls : Option San)
    (a e : Bool) (om : Mode) (es : Color) (et : Bool)
    (ht : turn ⟨m1 :: m2 :: rest2, sh, rs, lm, hls, a, e, Mode.pve, om, es, et⟩ = es) :
    undoToHumanTurn ⟨m1 :: m2 :: rest2, sh, rs, lm, hls, a, e, Mode.pve, om, es, et⟩ =
      ⟨rest2, sh.tail.tail, rs ++ [(m1, sh.head?), (m2, sh.tail.head?)], rest2.head?,
        (match rest2 with | [] => none | _ :: _ => sh.tail.tail.head?),
        false, e, Mode.pve, om, es, et⟩ := by
  unfold undoToHumanTurn
  rw [if_neg (by simp)]
  simp only [if_pos ht]
  cases rest2 <;> rfl

/-- undo_to_human_turn in PvE, two or more plies, human side to move: the
one-pop branch, written out. -/
theorem undoToHumanTurn_two_not (m1 m2 : Move) (rest2 : List Move) (sh : List San)
    (rs : List (Move × Option San)) (lm : Option Move) (hls : Option San)
    (a e : Bool) (om : Mode) (es : Color) (et : Bool)
    (ht : ¬ turn ⟨m1 :: m2 :: rest2, sh, rs, lm, hls, a, e, Mode.pve, om, es, et⟩ = es) :
    undoToHumanTurn ⟨m1 :: m2 :: rest2, sh, rs, lm, hls, a, e, Mode.pve, om, es, et⟩ =
      ⟨m2 :: rest2, sh.tail, (m1, sh.head?) :: rs, some m2, sh.tail.head?,
        false, e, Mode.pve, om, es, et⟩ := by
  unfold undoToHumanTurn
  rw [if_neg (by simp)]
  simp only [if_neg ht]
  rfl

theorem historyInv_undoMove (s : GameState) (h : HistoryInv s) : HistoryInv (undoMove s) := by
  obtain ⟨h1, h2, h3⟩ := h
  obtain ⟨ms, sh, rs, lm, hls, a, e, mo, om, es, et⟩ := s
  dsimp only at h1 h2 h3
  cases ms with
  | nil => exact ⟨h1, h2, h3⟩
  | cons m rest =>
    rw [undoMove_cons]
    refine ⟨rfl, ?_, ?_⟩
    · cases rest with
      | nil =>
        simp only [List.length_cons, List.length_nil] at h3
        cases sh with
        | nil => rfl
        | cons t ts =>
          cases ts with
          | nil => rfl
          | cons u us =>
            simp only [List.length_cons] at h3
            omega
      | cons r rrest => rfl
    · simp only [List.length_tail]
      simp only [List.length_cons] at h3
      omega

theorem historyInv_redoMove (s : GameState) (h : HistoryInv s) : HistoryInv (redoMove s) := by
  obtain ⟨h1, h2, h3⟩ := h
  obtain ⟨ms, sh, rs, lm, hls, a, e, mo, om, es, et⟩ := s
  dsimp only at h1 h2 h3
  cases rs with
  | nil => exact ⟨h1, h2, h3⟩
  | cons p rest =>
    obtain ⟨m, san⟩ := p
    rw [redoMove_cons]
    cases san with
    | none =>
      refine ⟨rfl, h2, ?_⟩
      simp only [List.length_cons]
      exact Nat.le_succ_of_le h3
    | some t =>
      refine ⟨rfl, rfl, ?_⟩
      simp only [List.length_cons]
      exact Nat.succ_le_succ h3

theorem historyInv_undoToHumanTurn (s : GameState) (h : HistoryInv s) :
    HistoryInv (undoToHumanTurn s) := by
  by_cases hc : s.mode ≠ Mode.pve ∨ s.moveStack = []
  · rw [undoToHumanTurn_early s hc]
    exact historyInv_undoMove s h
  · push_neg at hc
    obtain ⟨hmode, hne⟩ := hc
    obtain ⟨h1, h2, h3⟩ := h
    obtain ⟨ms, sh, rs, lm, hls, a, e, mo, om, es, et⟩ := s
    dsimp only at h1 h2 h3 hmode hne
    subst hmode
    cases ms with
    | nil => exact absurd rfl hne
    | cons m1 rest =>
      cases rest with
      | nil =>
        rw [undoToHumanTurn_one]
        simp only [List.length_cons, List.length_nil] at h3
        refine ⟨rfl, ?_, ?_⟩
        · cases sh with
          | nil => rfl
          | cons t ts =>
            cases ts with
            | nil => rfl
            | cons u us =>
              simp only [List.length_cons] at h3
              omega
        · simp only [List.length_tail, List.length_nil]
          omega
      | cons m2 rest2 =>
        by_cases ht : turn ⟨m1 :: m2 :: rest2, sh, rs, lm, hls, a, e, Mode.pve, om, es, et⟩ = es
        · rw [undoToHumanTurn_two m1 m2 rest2 sh rs lm hls a e om es et ht]
          simp only [List.length_cons] at h3
          refine ⟨rfl, ?_, ?_⟩
          · cases rest2 with
            | nil =>
              cases sh with
              | nil => rfl
              | cons t ts =>
                cases ts with
                | nil => rfl
                | cons u us =>
                  cases us with
                  | nil => rfl
                  | cons v vs =>
                    simp only [List.length_cons, List.length_nil] at h3
                    omega
            | cons r rr => rfl
          · simp only [List.length_tail]
            omega
        · rw [undoToHumanTurn_two_not m1 m2 rest2 sh rs lm hls a e om es et ht]
          simp only [List.length_cons] at h3
          refine ⟨rfl, rfl, ?_⟩
          simp only [List.length_tail, List.length_cons]
          omega

theorem historyInv_toggleEngine (s : GameState) (h : HistoryInv s) :
    HistoryInv (toggleEngine s) := by
  unfold toggleEngine
  split_ifs <;> exact h

theorem reachable_historyInv (s : GameState) (hr : Reachable s) : HistoryInv s := by
  induction hr with
  | init m c => exact historyInv_initState m c
  | initEngineFailed c => exact ⟨rfl, rfl, Nat.le_refl 0⟩
  | humanMove s m san _ ih => exact historyInv_pushMove s m san ih
  | engineMove s m san _ ih => exact historyInv_pushMove s m san ih
  | undo s _ ih => exact historyInv_undoMove s ih
  | redo s _ ih => exact historyInv_redoMove s ih
  | undoHuman s _ ih => exact historyInv_undoToHumanTurn s ih
  | reset s _ ih => exact ⟨rfl, rfl, Nat.le_refl 0⟩
  | toggle s _ ih => exact historyInv_toggleEngine s ih

/-- Claim C8: on every reachable state with a non-empty played sequence,
redo() immediately after undo() restores the entire history state — the
position (the applied-move sequence from the standard start), lastMove,
lastNotation, and both history sequences — to exactly its value before the
undo(). -/
theorem C8_undo_redo_roundtrip (s : GameState) (hr : Reachable s)
    (hne : s.moveStack ≠ []) : redoMove (undoMove s) = s := by
  obtain ⟨h1, h2, h3⟩ := reachable_historyInv s hr
  obtain ⟨ms, sh, rs, lm, hls, a, e, mo, om, es, et⟩ := s
  dsimp only at h1 h2 h3 hne
  cases ms with
  | nil => exact absurd rfl hne
  | cons m rest =>
    dsimp only [List.head?] at h1
    subst h1
    cases sh with
    | nil =>
      dsimp only [List.head?] at h2
      subst h2
      cases rest <;> rfl
    | cons t ts =>
      dsimp only [List.head?] at h2
      subst h2
      rfl

/-- Witness for C8 at a concrete reachable state: the session after one
applied human move e4. -/
theorem C8_undo_redo_roundtrip_witness :
    redoMove (undoMove (handleClickApply (initState Mode.pvp Color.black) 4 (some "e4"))) =
      handleClickApply (initState Mode.pvp Color.black) 4 (some "e4") :=
  C8_undo_redo_roundtrip _
    (Reachable.humanMove _ 4 (some "e4") (Reachable.init Mode.pvp Color.black))
    (by decide)

/-! ## Claim C9 — notation failure and empty-sequence no-ops -/

/-- Claim C9, evaluated at the failing input: after a successful move
(notation "e4") the human applies a second move whose notation computation
fails.  The move IS applied (played grows to two entries, never blocked or
reverted) and undo/redo on empty sequences are exact no-ops, but the failed
notation is NOT cached as absent: san_history gains no entry at all and
history_last_move_san keeps the stale previous text "e4" instead of becoming
absent. -/
theorem C9_notation_failure_eval :
    (handleClickApply (handleClickApply (initState Mode.pvp Color.black) 4 (some "e4"))
        12 none).moveStack = [12, 4] ∧
    (handleClickApply (handleClickApply (initState Mode.pvp Color.black) 4 (some "e4"))
        12 none).sanHistory = ["e4"] ∧
    (handleClickApply (handleClickApply (initState Mode.pvp Color.black) 4 (some "e4"))
        12 none).historyLastSan = some "e4" ∧
    undoMove (initState Mode.pvp Color.black) = initState Mode.pvp Color.black ∧
    redoMove (initState Mode.pvp Color.black) = initState Mode.pvp Color.black := by
  decide

/-! ## Claim C10 — promotions built by the click interface -/

/-- Claim C10: the move constructed by handle_click carries promotion = queen
exactly in the pawn-to-rank-index-0-or-7 case (chess ranks 1 and 8), and no
promotion piece other than queen can ever be produced. -/
theorem C10_promotion_queen (sp : Option Piece) (sel tgt : Nat) :
    (∀ p : Piece, sp = some p → p.pieceType = PieceType.pawn →
      (squareRank tgt = 0 ∨ squareRank tgt = 7) →
      (buildClickMove sp sel tgt).promotion = some PieceType.queen) ∧
    ((buildClickMove sp sel tgt).promotion = none ∨
      (buildClickMove sp sel tgt).promotion = some PieceType.queen) := by
  constructor
  · rintro p rfl hp hr
    simp [buildClickMove, hp, hr]
  · cases sp with
    | none => simp [buildClickMove]
    | some p =>
      by_cases hp : p.pieceType = PieceType.pawn
      · by_cases hr : squareRank tgt = 0 ∨ squareRank tgt = 7
        · right
          simp [buildClickMove, hp, hr]
        · left
          simp [buildClickMove, hp, hr]
      · left
        simp [buildClickMove, hp]

/-- Witness for C10: a white pawn selected on a8-file square 48 moving to
square 56 (rank index 7, chess rank 8) yields promotion = queen. -/
theorem C10_promotion_queen_witness :
    (buildClickMove (some ⟨PieceType.pawn, Color.white⟩) 48 56).promotion =
      some PieceType.queen :=
  (C10_promotion_queen (some ⟨PieceType.pawn, Color.white⟩) 48 56).1
    ⟨PieceType.pawn, Color.white⟩ rfl rfl (Or.inr (by decide))

end ChessVision
